import Mathlib

/-! Verification of the message-dispatch and identifier-extraction pipeline of
the slack-jira-bot repository (src/jira-bot.go), as a shallow embedding.

The Go file is embedded function by function:
* `getConfig`, `BotConfig`        — configuration read from the environment;
  the ambient environment (`os.Getenv`) is made explicit as a parameter of
  type `Env`, since the Go code consults it at every call.
* `shouldIgnoreMessage`           — the message filter.
* `extractIssueIDs`               — regex scan `\b(\w+)-(\d+)\b` (Go RE2,
  leftmost-first, ASCII word classes), upper-casing and order-preserving
  deduplication.  The regex engine is specialised to this one pattern:
  for it, greedy backtracking is forced (see `tryMatch`), so matching is
  a deterministic left-to-right scan.
* `formatMessage`, `getJiraURL`   — the reply formatter.
* `respondToIssueMentioned`, `handleIncomingMessage` — the dispatch loop;
  the tracker fetch is an oracle parameter, a Go panic during the fetch is
  the `FetchOutcome.fault` constructor, and the `defer`/`recover` boundary
  of `respondToIssueMentioned` is the `match` on that outcome.  Log lines
  and outbound `PostMessage` payloads are returned explicitly.
-/

namespace JiraBot

/-- The process environment, as consulted by `os.Getenv`: a total map from
variable names to values, where an unset variable reads as `""` (Go's
`os.Getenv` convention). -/
def Env : Type := String → String

/-- The `BotConfig` struct of src/jira-bot.go. -/
structure BotConfig where
  username     : String
  slackAPIKey  : String
  jiraUsername : String
  jiraPassword : String
  jiraBaseURL  : String
  deriving DecidableEq

/-- `getConfig` of src/jira-bot.go: builds a fresh `BotConfig` from the
environment at every call; `Username` is the fixed literal `"JiraBot"`. -/
def getConfig (env : Env) : BotConfig :=
  { username     := "JiraBot"
    slackAPIKey  := env "SLACK_API_KEY"
    jiraBaseURL  := env "JIRA_BASEURL"
    jiraUsername := env "JIRA_USERNAME"
    jiraPassword := env "JIRA_PASSWORD" }

/-- The fields of `slack.Msg` that src/jira-bot.go reads: `Text`,
`Channel`, `Username`, `SubType` (all strings; an absent subtype is
`""`, the Go zero value). -/
structure SlackMsg where
  text     : String
  channel  : String
  username : String
  subtype  : String
  deriving DecidableEq

/-- `shouldIgnoreMessage` of src/jira-bot.go. -/
def shouldIgnoreMessage (env : Env) (message : SlackMsg) : Bool :=
  message.username == (getConfig env).username || message.subtype == "bot_message"

/-- The spec's `shouldProcess` predicate: src/jira-bot.go has no such
function, but `handleIncomingMessage` processes a message exactly when
`shouldIgnoreMessage` is false, so `shouldProcess` is its negation. -/
def shouldProcess (env : Env) (message : SlackMsg) : Bool :=
  !shouldIgnoreMessage env message

/-- Go RE2 character class `\w` (ASCII): `[0-9A-Za-z_]`, by code point. -/
def isWordChar (c : Char) : Bool :=
  (65 ≤ c.toNat && c.toNat ≤ 90) || (97 ≤ c.toNat && c.toNat ≤ 122) ||
    (48 ≤ c.toNat && c.toNat ≤ 57) || c.toNat == 95

/-- Go RE2 character class `\d` (ASCII): `[0-9]`, by code point. -/
def isDigitChar (c : Char) : Bool :=
  48 ≤ c.toNat && c.toNat ≤ 57

/-- One attempt to match `\b(\w+)-(\d+)\b` at the head of `s`, where
`prevWord` says whether the character just before `s` is a word character
(`false` at the start of the text).  For this pattern leftmost-first
greedy matching is forced: the `\w+` run must be maximal (a shorter run
would be followed by a word character, not `-`) and so must the `\d+` run
(a shorter run would put the final `\b` between two word characters).
Returns `some (run, digits, rest)` — the `\w+` part, the `\d+` part and
the unconsumed remainder — or `none` when no match starts here. -/
def tryMatch (prevWord : Bool) (s : List Char) : Option (List Char × List Char × List Char) :=
  if prevWord then none
  else
    let run := s.takeWhile isWordChar
    let rest := s.dropWhile isWordChar
    if run = [] then none
    else if rest.head? = some '-' then
      let digits := rest.tail.takeWhile isDigitChar
      let rest3 := rest.tail.dropWhile isDigitChar
      if digits = [] then none
      else if rest3.head?.any isWordChar then none
      else some (run, digits, rest3)
    else none

/-- The scan loop of Go's `FindAllString(re, -1)`: try each start
position left to right; on a match, emit it and resume just after its
end (the character before the resumption point is then the final digit,
a word character).  `fuel` bounds the recursion; it only needs to be at
least `s.length` (each step consumes at least one character). -/
def findAllAux : Nat → Bool → List Char → List (List Char)
  | 0, _, _ => []
  | _ + 1, _, [] => []
  | fuel + 1, prevWord, c :: rest =>
    match tryMatch prevWord (c :: rest) with
    | some (run, digits, rest3) => (run ++ '-' :: digits) :: findAllAux fuel true rest3
    | none => findAllAux fuel (isWordChar c) rest

/-- `re.FindAllString(message, -1)` for `re := \b(\w+)-(\d+)\b`. -/
def findAllMatches (text : List Char) : List (List Char) :=
  findAllAux text.length false text

/-- `strings.ToUpper`, character-wise, at the `List Char` level (all
matched characters are ASCII, where Go's and Lean's upper-casing agree). -/
def toUpperStr (l : List Char) : List Char :=
  l.map Char.toUpper

/-- The deduplication loop of `extractIssueIDs` (src/jira-bot.go lines
154–168): walk the matches left to right, upper-case each one, skip it
if already `encountered`, otherwise record it and append it. -/
def dedupUpper (encountered : List (List Char)) : List (List Char) → List (List Char)
  | [] => []
  | m :: rest =>
    let u := toUpperStr m
    if encountered.contains u then dedupUpper encountered rest
    else u :: dedupUpper (u :: encountered) rest

/-- `extractIssueIDs` of src/jira-bot.go: regex scan, upper-case each
match, deduplicate preserving first-seen order. -/
def extractIssueIDs (message : String) : List String :=
  (dedupUpper [] (findAllMatches message.toList)).map (fun l => String.mk l)

/-- Modelled from the spec: the `gojira.Issue` record is declared in the
external `go-jira-client` dependency, whose source is not part of this
repository.  Per the spec's data model the consumed fields are: key,
status name, summary, reporter display name, assignee display name
(nullable), and the creation timestamp in both epoch and human-formatted
form.  A user record carries a display name. -/
structure JiraUser where
  displayName : String
  deriving DecidableEq

/-- Modelled from the spec: status of a ticket, of which only the name is
consumed. -/
structure JiraStatus where
  name : String
  deriving DecidableEq

/-- Modelled from the spec: the `Fields` sub-record of a ticket.  The
assignee is nullable ("assignee display name (nullable)"). -/
structure IssueFields where
  status   : JiraStatus
  summary  : String
  reporter : JiraUser
  assignee : Option JiraUser
  created  : String
  deriving DecidableEq

/-- Modelled from the spec: a fetched ticket record.  `createdAtUnix` is
`issue.CreatedAt.Unix()`, the creation moment in epoch seconds. -/
structure Issue where
  key           : String
  fields        : IssueFields
  createdAtUnix : Int
  deriving DecidableEq

/-- Modelled from the spec: reading the display name through a nullable
assignee degrades to an empty placeholder ("assignee may render as
empty/placeholder if unassigned — must not fail"). -/
def assigneeDisplayName (fields : IssueFields) : String :=
  (fields.assignee.map JiraUser.displayName).getD ""

/-- `getJiraURL` of src/jira-bot.go. -/
def getJiraURL (env : Env) (issueKey : String) : String :=
  (getConfig env).jiraBaseURL ++ "/browse/" ++ issueKey

/-- `bytes.Buffer.WriteString`: append to the accumulated output. -/
def writeString (buffer s : String) : String :=
  buffer ++ s

/-- `formatMessage` of src/jira-bot.go: three `WriteString` calls on an
empty buffer, one per `fmt.Sprintf` template. -/
def formatMessage (env : Env) (issue : Issue) : String :=
  let message := ""
  let message := writeString message
    ("> <" ++ getJiraURL env issue.key ++ "|" ++ issue.key ++
      "> :traffic_light: *Status:* " ++ issue.fields.status.name ++
      " :memo: *Summary:* " ++ issue.fields.summary ++ "\n")
  let message := writeString message
    ("> :bust_in_silhouette: *Creator:* " ++ issue.fields.reporter.displayName ++
      ", *Assignee:* " ++ assigneeDisplayName issue.fields ++ "\n")
  let message := writeString message
    ("> :calendar: *Created:* <!date^" ++ toString issue.createdAtUnix ++
      "^{date} at {time}|" ++ issue.fields.created ++ ">")
  message

/-- Outcome of `getJiraIssue` (the tracker fetch): either a ticket
record, or a Go runtime panic raised inside the fetch (the library call
or its marshaling).  The dispatch theorems quantify over this oracle. -/
inductive FetchOutcome where
  | ok : Issue → FetchOutcome
  | fault : FetchOutcome
  deriving DecidableEq

/-- An outbound `api.PostMessage(channel, text, params)` call: the reply
payload with its target channel and the sender name from the config. -/
structure ReplyPayload where
  channel  : String
  text     : String
  username : String
  deriving DecidableEq

/-- `respondToIssueMentioned` of src/jira-bot.go.  The `defer`/`recover`
block is the per-identifier fault boundary: a fault in the fetch is
caught and turned into the log line `"Exception responding to issue
<id>"` (the panic value itself is not modelled) with no reply; a
successful fetch is formatted and posted.  Returns the log lines and the
optional outbound payload. -/
def respondToIssueMentioned (env : Env) (fetch : String → FetchOutcome)
    (channel issueID : String) : List String × Option ReplyPayload :=
  match fetch issueID with
  | .fault => (["Exception responding to issue " ++ issueID], none)
  | .ok issueData =>
    ([], some { channel := channel
                text := formatMessage env issueData
                username := (getConfig env).username })

/-- The per-identifier loop of `handleIncomingMessage` (src/jira-bot.go
lines 61–66): for each extracted identifier in order, log it and run
`respondToIssueMentioned`, collecting all log lines and all outbound
payloads. -/
def dispatchLoop (env : Env) (fetch : String → FetchOutcome)
    (channel : String) : List String → List String × List ReplyPayload
  | [] => ([], [])
  | issueID :: rest =>
    let r := dispatchLoop env fetch channel rest
    let step := respondToIssueMentioned env fetch channel issueID
    (("handleMessage: Identified " ++ issueID ++ " in message") :: (step.1 ++ r.1),
      step.2.toList ++ r.2)

/-- `handleIncomingMessage` of src/jira-bot.go: filter, extract, dispatch. -/
def handleIncomingMessage (env : Env) (fetch : String → FetchOutcome)
    (message : SlackMsg) : List String × List ReplyPayload :=
  if shouldIgnoreMessage env message then (["handleMessage: Ignoring message"], [])
  else dispatchLoop env fetch message.channel (extractIssueIDs message.text)

/-! Helper lemmas about `Char.toUpper`, by code point. -/

theorem char_toNat_ofNat {n : Nat} (h : n < 55296) : (Char.ofNat n).toNat = n := by
  rw [Char.ofNat, dif_pos (Or.inl h)]
  simp [Char.ofNatAux, Char.toNat, UInt32.toNat, BitVec.toNat_ofNatLt]

theorem toUpper_toNat_of_lower {c : Char} (h1 : 97 ≤ c.toNat) (h2 : c.toNat ≤ 122) :
    (Char.toUpper c).toNat = c.toNat - 32 := by
  rw [Char.toUpper]
  rw [if_pos ⟨h1, h2⟩]
  exact char_toNat_ofNat (by omega)

theorem toUpper_eq_self_of_not_lower {c : Char} (h : ¬ (97 ≤ c.toNat ∧ c.toNat ≤ 122)) :
    Char.toUpper c = c := by
  rw [Char.toUpper]
  exact if_neg h

theorem isLower_iff_toNat {c : Char} : c.isLower = true ↔ 97 ≤ c.toNat ∧ c.toNat ≤ 122 := by
  simp [Char.isLower, Char.toNat]
  exact Iff.rfl

theorem isWordChar_iff_toNat {c : Char} :
    isWordChar c = true ↔
      (65 ≤ c.toNat ∧ c.toNat ≤ 90) ∨ (97 ≤ c.toNat ∧ c.toNat ≤ 122) ∨
        (48 ≤ c.toNat ∧ c.toNat ≤ 57) ∨ c.toNat = 95 := by
  simp [isWordChar]
  tauto

theorem isDigitChar_iff_toNat {c : Char} :
    isDigitChar c = true ↔ 48 ≤ c.toNat ∧ c.toNat ≤ 57 := by
  simp [isDigitChar]

theorem isWordChar_toUpper {c : Char} (h : isWordChar c = true) :
    isWordChar (Char.toUpper c) = true := by
  rw [isWordChar_iff_toNat] at h
  by_cases hl : 97 ≤ c.toNat ∧ c.toNat ≤ 122
  · rw [isWordChar_iff_toNat, toUpper_toNat_of_lower hl.1 hl.2]
    omega
  · rw [toUpper_eq_self_of_not_lower hl, isWordChar_iff_toNat]
    exact h

theorem toUpper_not_lower (c : Char) : (Char.toUpper c).isLower = false := by
  by_cases hl : 97 ≤ c.toNat ∧ c.toNat ≤ 122
  · rw [← Bool.not_eq_true, isLower_iff_toNat, toUpper_toNat_of_lower hl.1 hl.2]
    omega
  · rw [toUpper_eq_self_of_not_lower hl, ← Bool.not_eq_true, isLower_iff_toNat]
    exact hl

theorem toUpper_idem (c : Char) : Char.toUpper (Char.toUpper c) = Char.toUpper c := by
  apply toUpper_eq_self_of_not_lower
  rw [← isLower_iff_toNat, toUpper_not_lower]
  simp

theorem toUpper_of_isDigitChar {c : Char} (h : isDigitChar c = true) :
    Char.toUpper c = c := by
  rw [isDigitChar_iff_toNat] at h
  exact toUpper_eq_self_of_not_lower (by omega)

/-! Helper lemmas about the matcher. -/

theorem takeWhile_all_append {p : Char → Bool} {l1 l2 : List Char}
    (h : ∀ c ∈ l1, p c = true) :
    (l1 ++ l2).takeWhile p = l1 ++ l2.takeWhile p := by
  induction l1 with
  | nil => simp
  | cons c rest ih =>
    simp [List.takeWhile_cons, h c (by simp), ih (fun x hx => h x (by simp [hx]))]

theorem dropWhile_all_append {p : Char → Bool} {l1 l2 : List Char}
    (h : ∀ c ∈ l1, p c = true) :
    (l1 ++ l2).dropWhile p = l2.dropWhile p := by
  induction l1 with
  | nil => simp
  | cons c rest ih =>
    simp only [List.cons_append, List.dropWhile_cons, h c (by simp)]
    exact ih (fun x hx => h x (by simp [hx]))

/-- The shape of a successful match attempt: a nonempty run of word
characters and a nonempty run of digits. -/
theorem tryMatch_shape {p : Bool} {s run digits rest3 : List Char}
    (h : tryMatch p s = some (run, digits, rest3)) :
    run ≠ [] ∧ (∀ c ∈ run, isWordChar c = true) ∧
      digits ≠ [] ∧ (∀ c ∈ digits, isDigitChar c = true) := by
  simp only [tryMatch] at h
  split at h
  · exact absurd h (by simp)
  · split at h
    · exact absurd h (by simp)
    · split at h
      · split at h
        · exact absurd h (by simp)
        · split at h
          · exact absurd h (by simp)
          · rw [Option.some.injEq, Prod.mk.injEq, Prod.mk.injEq] at h
            obtain ⟨h1, h2, h3⟩ := h
            subst h1; subst h2; subst h3
            refine ⟨by assumption, fun c hc => List.mem_takeWhile_imp hc,
              by assumption, fun c hc => List.mem_takeWhile_imp hc⟩
      · exact absurd h (by simp)

/-- Every string the scan returns is a word-run, a hyphen, a digit-run. -/
theorem findAllAux_shape {fuel : Nat} {p : Bool} {s m : List Char}
    (hm : m ∈ findAllAux fuel p s) :
    ∃ run digits, m = run ++ '-' :: digits ∧
      run ≠ [] ∧ (∀ c ∈ run, isWordChar c = true) ∧
      digits ≠ [] ∧ (∀ c ∈ digits, isDigitChar c = true) := by
  induction fuel generalizing p s with
  | zero => exact absurd hm (by simp [findAllAux])
  | succ fuel ih =>
    match s with
    | [] => exact absurd hm (by simp [findAllAux])
    | c :: rest =>
      rw [findAllAux] at hm
      split at hm
      · next run digits rest3 htm =>
        rcases List.mem_cons.mp hm with hEq | hTail
        · obtain ⟨hr, hw, hd, hdd⟩ := tryMatch_shape htm
          exact ⟨run, digits, hEq, hr, hw, hd, hdd⟩
        · exact ih hTail
      · exact ih hm

/-! Helper lemmas about the deduplication loop. -/

theorem contains_iff_mem {l : List (List Char)} {x : List Char} :
    l.contains x = true ↔ x ∈ l :=
  List.elem_iff

/-- Every element of the deduplicated list is the upper-casing of some
input element. -/
theorem mem_dedupUpper {ms : List (List Char)} {enc : List (List Char)} {u : List Char}
    (hu : u ∈ dedupUpper enc ms) : ∃ m ∈ ms, u = toUpperStr m := by
  induction ms generalizing enc with
  | nil => exact absurd hu (by simp [dedupUpper])
  | cons m rest ih =>
    rw [dedupUpper] at hu
    split at hu
    · obtain ⟨m', hm', he⟩ := ih hu
      exact ⟨m', by simp [hm'], he⟩
    · rcases List.mem_cons.mp hu with hEq | hTail
      · exact ⟨m, by simp, hEq⟩
      · obtain ⟨m', hm', he⟩ := ih hTail
        exact ⟨m', by simp [hm'], he⟩

/-- The deduplicated list has no duplicates, and avoids everything
already encountered. -/
theorem dedupUpper_nodup : ∀ (ms enc : List (List Char)),
    (dedupUpper enc ms).Nodup ∧ ∀ u ∈ dedupUpper enc ms, u ∉ enc := by
  intro ms
  induction ms with
  | nil => intro enc; simp [dedupUpper]
  | cons m rest ih =>
    intro enc
    rw [dedupUpper]
    split
    · exact ⟨(ih enc).1, (ih enc).2⟩
    · next hnc =>
      have hmem : toUpperStr m ∉ enc := fun hx =>
        hnc (contains_iff_mem.mpr hx)
      refine ⟨List.nodup_cons.mpr ⟨fun hx => ?_, (ih _).1⟩, ?_⟩
      · exact absurd (by simp : toUpperStr m ∈ toUpperStr m :: enc)
          (by simpa using (ih (toUpperStr m :: enc)).2 _ hx)
      · intro u hu
        rcases List.mem_cons.mp hu with hEq | hTail
        · rw [hEq]; exact hmem
        · have := (ih (toUpperStr m :: enc)).2 u hTail
          exact fun hx => this (by simp [hx])

/-- The deduplication pass exactly as the spec words it: "walk matches
left-to-right, keep a membership set of identifiers already seen, append
each match to the result only the first time it is seen" (the matches
having been normalized to upper case first). -/
def dedupSpec (ms : List (List Char)) : List (List Char) :=
  ms.foldl (fun result m => if result.contains m then result else result ++ [m]) []

theorem dedupSpec_general :
    ∀ (ms : List (List Char)) (enc acc : List (List Char)),
      (∀ x, (enc.contains x : Bool) = acc.contains x) →
      (ms.map toUpperStr).foldl
          (fun result m => if result.contains m then result else result ++ [m]) acc =
        acc ++ dedupUpper enc ms := by
  intro ms
  induction ms with
  | nil => intro enc acc h; simp [dedupUpper]
  | cons m rest ih =>
    intro enc acc h
    simp only [List.map_cons, List.foldl_cons]
    rw [dedupUpper]
    by_cases hc : enc.contains (toUpperStr m) = true
    · rw [if_pos ((h _).symm.trans hc ▸ rfl), if_pos hc]
      · exact ih enc acc h
    · rw [if_neg (by rw [← h]; exact hc), if_neg hc]
      rw [ih (toUpperStr m :: enc) (acc ++ [toUpperStr m]) ?_]
      · simp
      · intro x
        show (toUpperStr m :: enc).contains x = (acc ++ [toUpperStr m]).contains x
        by_cases hx : x = toUpperStr m
        · subst hx
          simp [contains_iff_mem]
        · have h1 : ((toUpperStr m :: enc).contains x : Bool) = enc.contains x := by
            rw [Bool.eq_iff_iff]
            simp [contains_iff_mem, hx]
          have h2 : ((acc ++ [toUpperStr m]).contains x : Bool) = acc.contains x := by
            rw [Bool.eq_iff_iff]
            simp [contains_iff_mem, hx]
          rw [h1, h2, h]

/-- Decidable check that a token has the issue-identifier shape of the
regex: one or more word characters, a hyphen, one or more digits. -/
def isIssueToken (l : List Char) : Bool :=
  let run := l.takeWhile isWordChar
  let rest := l.dropWhile isWordChar
  (!run.isEmpty) &&
    match rest with
    | '-' :: d => (!d.isEmpty) && d.all isDigitChar
    | _ => false

theorem isIssueToken_parts {run digits : List Char} (hr : run ≠ [])
    (hw : ∀ c ∈ run, isWordChar c = true) (hd : digits ≠ [])
    (hdd : ∀ c ∈ digits, isDigitChar c = true) :
    isIssueToken (run ++ '-' :: digits) = true := by
  have hminus : isWordChar '-' = false := by decide
  simp only [isIssueToken]
  rw [takeWhile_all_append hw, dropWhile_all_append hw]
  simp [List.takeWhile_cons, List.dropWhile_cons, hminus, hr, hd,
    List.all_eq_true]
  exact hdd

theorem toUpperStr_toUpperStr (l : List Char) :
    toUpperStr (toUpperStr l) = toUpperStr l := by
  simp only [toUpperStr, List.map_map]
  exact List.map_congr_left (fun c _ => toUpper_idem c)

/-- Structure of every identifier the extractor returns: it is the
upper-casing of a regex match, hence a nonempty upper-cased word run, a
hyphen and a nonempty digit run; it is a fixed point of upper-casing and
contains no lowercase letter. -/
theorem extract_shape {text m : String} (h : m ∈ extractIssueIDs text) :
    isIssueToken m.data = true ∧ toUpperStr m.data = m.data ∧
      ∀ c ∈ m.data, c.isLower = false := by
  simp only [extractIssueIDs, List.mem_map] at h
  obtain ⟨l, hl, hml⟩ := h
  obtain ⟨m0, hm0, hup⟩ := mem_dedupUpper hl
  obtain ⟨run, digits, hsplit, hr, hw, hd, hdd⟩ := findAllAux_shape hm0
  have hdata : m.data = toUpperStr m0 := by rw [← hml, hup]
  have hupd : digits.map Char.toUpper = digits := by
    have h1 : digits.map Char.toUpper = digits.map id :=
      List.map_congr_left (fun c hc => toUpper_of_isDigitChar (hdd c hc))
    simpa using h1
  have hsplitU : toUpperStr m0 = run.map Char.toUpper ++ '-' :: digits := by
    rw [hsplit]
    simp only [toUpperStr, List.map_append, List.map_cons, hupd]
    rw [show Char.toUpper '-' = '-' from by decide]
  refine ⟨?_, ?_, ?_⟩
  · rw [hdata, hsplitU]
    refine isIssueToken_parts ?_ ?_ hd hdd
    · intro hx
      exact hr (by simpa using hx)
    · intro c hc
      obtain ⟨c0, hc0, hcc⟩ := List.mem_map.mp hc
      rw [← hcc]
      exact isWordChar_toUpper (hw c0 hc0)
  · rw [hdata]
    exact toUpperStr_toUpperStr m0
  · intro c hc
    rw [hdata] at hc
    obtain ⟨c0, _, hcc⟩ := List.mem_map.mp hc
    rw [← hcc]
    exact toUpper_not_lower c0

/-- The extractor refines the spec's dedup-with-membership-set walk. -/
theorem extract_eq_dedupSpec (text : String) :
    extractIssueIDs text =
      (dedupSpec ((findAllMatches text.toList).map toUpperStr)).map
        (fun l => String.mk l) := by
  unfold extractIssueIDs dedupSpec
  congr 1
  exact (dedupSpec_general (findAllMatches text.toList) [] [] (fun x => rfl)).symm

/-- The extractor never returns a duplicate. -/
theorem extract_nodup (text : String) : (extractIssueIDs text).Nodup := by
  unfold extractIssueIDs
  refine List.Nodup.map ?_ (dedupUpper_nodup _ []).1
  intro a b hab
  simpa using congrArg String.data hab

/-! Helper lemmas about the dispatch loop. -/

theorem dispatchLoop_length_le (env : Env) (fetch : String → FetchOutcome)
    (channel : String) (ids : List String) :
    (dispatchLoop env fetch channel ids).2.length ≤ ids.length := by
  induction ids with
  | nil => simp [dispatchLoop]
  | cons issueID rest ih =>
    rw [dispatchLoop]
    cases hf : fetch issueID with
    | ok issue =>
      simp only [respondToIssueMentioned, hf, Option.toList]
      simpa using ih
    | fault =>
      simp only [respondToIssueMentioned, hf, Option.toList]
      simp only [List.nil_append, List.length_cons]
      omega

theorem dispatchLoop_length_eq (env : Env) (fetch : String → FetchOutcome)
    (channel : String) (ids : List String)
    (h : ∀ issueID ∈ ids, fetch issueID ≠ FetchOutcome.fault) :
    (dispatchLoop env fetch channel ids).2.length = ids.length := by
  induction ids with
  | nil => simp [dispatchLoop]
  | cons issueID rest ih =>
    rw [dispatchLoop]
    cases hf : fetch issueID with
    | ok issue =>
      simp only [respondToIssueMentioned, hf, Option.toList]
      simpa using ih (fun i hi => h i (by simp [hi]))
    | fault => exact absurd hf (h issueID (by simp))

/-! Concrete fixtures used by the counterexamples and witnesses. -/

/-- An environment with no variable set. -/
def envEmpty : Env := fun _ => ""

/-- An environment where only `JIRA_BASEURL` is set. -/
def envJira : Env := fun k => if k = "JIRA_BASEURL" then "https://jira.example.com" else ""

/-- A concrete ticket record for the identifier `DEF-2`. -/
def issueDEF2 : Issue :=
  { key := "DEF-2"
    fields := { status := { name := "Open" }
                summary := "Second ticket"
                reporter := { displayName := "Alice" }
                assignee := some { displayName := "Bob" }
                created := "2016-01-01" }
    createdAtUnix := 1451606400 }

/-- A concrete ticket record with no assignee. -/
def issueNoAssignee : Issue :=
  { key := "PROJ-42"
    fields := { status := { name := "Open" }
                summary := "Fix it"
                reporter := { displayName := "Alice" }
                assignee := none
                created := "2016-01-01" }
    createdAtUnix := 1451606400 }

/-- A message from a human user mentioning two ticket identifiers. -/
def msgTwoIds : SlackMsg :=
  { text := "see ABC-1 and DEF-2", channel := "C123", username := "alice", subtype := "" }

/-- A fetch oracle for which `ABC-1` faults and `DEF-2` succeeds. -/
def fetchFailABC : String → FetchOutcome :=
  fun issueID => if issueID = "DEF-2" then .ok issueDEF2 else .fault

/-- A fetch oracle that always succeeds. -/
def fetchAllOk : String → FetchOutcome := fun _ => .ok issueDEF2

/-! Claim theorems. -/

/-- C5: `shouldProcess` returns false exactly when the author username
equals the bot's display name or the subtype is `"bot_message"`, and
true otherwise, whatever the text and channel; it is a pure predicate. -/
theorem c5_filter (env : Env) (msg : SlackMsg) :
    shouldProcess env msg = false ↔
      (msg.username = (getConfig env).username ∨ msg.subtype = "bot_message") := by
  simp [shouldProcess, shouldIgnoreMessage]
  tauto

/-- C9: the filter decision depends only on the author username and the
subtype: two messages agreeing on those two fields get the same decision
under the same bot identity, regardless of text, channel or anything
else. -/
theorem c9_filter_only_reads_username_subtype (env : Env) (m1 m2 : SlackMsg)
    (hu : m1.username = m2.username) (hs : m1.subtype = m2.subtype) :
    shouldProcess env m1 = shouldProcess env m2 := by
  simp [shouldProcess, shouldIgnoreMessage, hu, hs]

/-- Witness for C9 at two concrete messages differing in text and channel. -/
theorem c9_witness :
    shouldProcess envEmpty
        { text := "check PROJ-42", channel := "C1", username := "alice", subtype := "" } =
      shouldProcess envEmpty
        { text := "other text", channel := "C2", username := "alice", subtype := "" } :=
  c9_filter_only_reads_username_subtype envEmpty _ _ rfl rfl

/-- C6: on a ticket whose assignee is absent, the formatter still
returns the full string, with the assignee slot degraded to the empty
placeholder — the output is the same as for an assignee with an empty
display name. -/
theorem c6_format_nil_assignee (env : Env) (issue : Issue)
    (h : issue.fields.assignee = none) :
    assigneeDisplayName issue.fields = "" ∧
    formatMessage env issue =
      formatMessage env
        { issue with fields := { issue.fields with assignee := some { displayName := "" } } } := by
  constructor
  · simp [assigneeDisplayName, h]
  · simp [formatMessage, assigneeDisplayName, h]

/-- Witness for C6 at a concrete unassigned ticket. -/
theorem c6_witness :
    assigneeDisplayName issueNoAssignee.fields = "" ∧
    formatMessage envEmpty issueNoAssignee =
      formatMessage envEmpty
        { issueNoAssignee with
            fields := { issueNoAssignee.fields with assignee := some { displayName := "" } } } :=
  c6_format_nil_assignee envEmpty issueNoAssignee rfl

/-- C7: the formatted reply is exactly three segments joined by two
newlines: the first carries the browse URL `jiraBaseURL ++ "/browse/" ++
key` with the key, status name and summary; the second the reporter and
assignee display names; the third the date token carrying the epoch
seconds and the raw human-formatted creation string. -/
theorem c7_format_three_lines (env : Env) (issue : Issue) :
    formatMessage env issue =
      ("> <" ++ ((getConfig env).jiraBaseURL ++ "/browse/" ++ issue.key) ++ "|" ++
          issue.key ++ "> :traffic_light: *Status:* " ++ issue.fields.status.name ++
          " :memo: *Summary:* " ++ issue.fields.summary) ++ "\n" ++
      ("> :bust_in_silhouette: *Creator:* " ++ issue.fields.reporter.displayName ++
          ", *Assignee:* " ++ assigneeDisplayName issue.fields) ++ "\n" ++
      ("> :calendar: *Created:* <!date^" ++ toString issue.createdAtUnix ++
          "^{date} at {time}|" ++ issue.fields.created ++ ">") := by
  simp [formatMessage, writeString, getJiraURL, String.append_assoc]

/-- C8 counterexample: the configuration is not captured once at
startup — a use site (here the browse-URL construction, which calls
`getConfig`) observes the environment as it is at call time, so its
result differs under two environments that a startup-captured
configuration would render indistinguishable. -/
theorem c8_counterexample :
    getJiraURL envJira "ABC-1" ≠ getJiraURL envEmpty "ABC-1" ∧
      getConfig envJira ≠ getConfig envEmpty := by
  exact ⟨by decide, by decide⟩

/-- C8 amended: `getConfig` re-reads the environment on every call; it
is a pure function of the four environment variables with the fixed
default `"JiraBot"` for the display name, so all uses under an unchanged
environment observe the same configuration. -/
theorem c8_amended (env : Env) :
    getConfig env =
      { username := "JiraBot", slackAPIKey := env "SLACK_API_KEY",
        jiraUsername := env "JIRA_USERNAME", jiraPassword := env "JIRA_PASSWORD",
        jiraBaseURL := env "JIRA_BASEURL" } ∧
    ∀ env' : Env,
      env "SLACK_API_KEY" = env' "SLACK_API_KEY" →
      env "JIRA_BASEURL" = env' "JIRA_BASEURL" →
      env "JIRA_USERNAME" = env' "JIRA_USERNAME" →
      env "JIRA_PASSWORD" = env' "JIRA_PASSWORD" →
      getConfig env = getConfig env' := by
  refine ⟨rfl, ?_⟩
  intro env' h1 h2 h3 h4
  simp [getConfig, h1, h2, h3, h4]

/-- Witness for C8 amended at the empty environment. -/
theorem c8_amended_witness :
    getConfig envEmpty =
      { username := "JiraBot", slackAPIKey := envEmpty "SLACK_API_KEY",
        jiraUsername := envEmpty "JIRA_USERNAME", jiraPassword := envEmpty "JIRA_PASSWORD",
        jiraBaseURL := envEmpty "JIRA_BASEURL" } ∧
    getConfig envEmpty = getConfig envEmpty :=
  ⟨(c8_amended envEmpty).1, (c8_amended envEmpty).2 envEmpty rfl rfl rfl rfl⟩

/-- C1 counterexample: a filtered-in message with two extracted
identifiers, of which the first faults during its fetch, produces one
outbound payload, not two — the reply count equals the number of
identifiers that succeeded, not the size of the identifier set. -/
theorem c1_counterexample :
    shouldIgnoreMessage envEmpty msgTwoIds = false ∧
    (extractIssueIDs msgTwoIds.text).length = 2 ∧
    (handleIncomingMessage envEmpty fetchFailABC msgTwoIds).2.length = 1 ∧
    (handleIncomingMessage envEmpty fetchFailABC msgTwoIds).2.length ≠
      (extractIssueIDs msgTwoIds.text).length := by
  refine ⟨by decide, by decide, by decide, by decide⟩

/-- C1 amended: for every message that passes the filter, the number of
outbound payloads is at most the size of the extracted identifier set,
with equality when no identifier's fetch faults (one reply per distinct
identifier that succeeds). -/
theorem c1_amended (env : Env) (fetch : String → FetchOutcome) (msg : SlackMsg)
    (h : shouldIgnoreMessage env msg = false) :
    (handleIncomingMessage env fetch msg).2.length ≤
        (extractIssueIDs msg.text).length ∧
      ((∀ issueID ∈ extractIssueIDs msg.text, fetch issueID ≠ FetchOutcome.fault) →
        (handleIncomingMessage env fetch msg).2.length =
          (extractIssueIDs msg.text).length) := by
  simp only [handleIncomingMessage, if_neg (by simp [h] :
    ¬ shouldIgnoreMessage env msg = true)]
  exact ⟨dispatchLoop_length_le env fetch msg.channel _,
    fun hok => dispatchLoop_length_eq env fetch msg.channel _ hok⟩

/-- Witness for C1 amended: with an all-succeeding fetch the reply count
equals the identifier-set size. -/
theorem c1_amended_witness :
    (handleIncomingMessage envEmpty fetchAllOk msgTwoIds).2.length ≤
        (extractIssueIDs msgTwoIds.text).length ∧
      ((∀ issueID ∈ extractIssueIDs msgTwoIds.text,
          fetchAllOk issueID ≠ FetchOutcome.fault) →
        (handleIncomingMessage envEmpty fetchAllOk msgTwoIds).2.length =
          (extractIssueIDs msgTwoIds.text).length) :=
  c1_amended envEmpty fetchAllOk msgTwoIds (by decide)

/-- C2: when the extracted identifiers are `[A, B]`, `A`'s processing
faults and `B`'s fetch succeeds, the handler returns normally (no fault
propagates), sends exactly the one reply for `B` to the message's
channel, and the failure for `A` is visible only as the per-identifier
log line naming `A`. -/
theorem c2_per_identifier_isolation (env : Env) (fetch : String → FetchOutcome)
    (msg : SlackMsg) (A B : String) (issueB : Issue)
    (hfilter : shouldIgnoreMessage env msg = false)
    (hids : extractIssueIDs msg.text = [A, B])
    (hA : fetch A = FetchOutcome.fault)
    (hB : fetch B = FetchOutcome.ok issueB) :
    handleIncomingMessage env fetch msg =
      (["handleMessage: Identified " ++ A ++ " in message",
        "Exception responding to issue " ++ A,
        "handleMessage: Identified " ++ B ++ " in message"],
       [{ channel := msg.channel, text := formatMessage env issueB,
          username := (getConfig env).username }]) := by
  simp only [handleIncomingMessage, if_neg (by simp [hfilter] :
    ¬ shouldIgnoreMessage env msg = true), hids]
  simp [dispatchLoop, respondToIssueMentioned, hA, hB]

/-- Witness for C2 at the concrete two-identifier message. -/
theorem c2_witness :
    handleIncomingMessage envEmpty fetchFailABC msgTwoIds =
      (["handleMessage: Identified " ++ "ABC-1" ++ " in message",
        "Exception responding to issue " ++ "ABC-1",
        "handleMessage: Identified " ++ "DEF-2" ++ " in message"],
       [{ channel := msgTwoIds.channel, text := formatMessage envEmpty issueDEF2,
          username := (getConfig envEmpty).username }]) :=
  c2_per_identifier_isolation envEmpty fetchFailABC msgTwoIds "ABC-1" "DEF-2"
    issueDEF2 (by decide) (by decide) (by decide) (by decide)

/-- C3: the extractor upper-cases every match and deduplicates while
preserving first-occurrence order — it equals the spec's left-to-right
walk with a membership set — each identifier appears at most once, and
on `"see ABC-1 and abc-1 and DEF-2"` it yields exactly
`["ABC-1", "DEF-2"]`. -/
theorem c3_dedup_first_occurrence :
    (∀ text : String,
      extractIssueIDs text =
        (dedupSpec ((findAllMatches text.toList).map toUpperStr)).map
          (fun l => String.mk l) ∧
      (extractIssueIDs text).Nodup) ∧
    extractIssueIDs "see ABC-1 and abc-1 and DEF-2" = ["ABC-1", "DEF-2"] :=
  ⟨fun text => ⟨extract_eq_dedupSpec text, extract_nodup text⟩, by decide⟩

/-- C4: only word-boundary-delimited `word-chars`-hyphen-`digits` tokens
match — `"XABC-123X"` yields nothing (flanking word characters break
the boundary), `"(ABC-123)"` yields exactly `["ABC-123"]` (punctuation
is not a word character), and every extracted token has the
word-chars/hyphen/digits shape. -/
theorem c4_word_boundaries :
    extractIssueIDs "XABC-123X" = [] ∧
    extractIssueIDs "(ABC-123)" = ["ABC-123"] ∧
    ∀ text : String, ∀ m ∈ extractIssueIDs text, isIssueToken m.data = true :=
  ⟨by decide, by decide, fun _ _ hm => (extract_shape hm).1⟩

/-- Witness for C4's universally quantified part at a concrete token. -/
theorem c4_witness :
    "ABC-123" ∈ extractIssueIDs "(ABC-123)" ∧
      isIssueToken (String.data "ABC-123") = true :=
  ⟨by decide, c4_word_boundaries.2.2 "(ABC-123)" "ABC-123" (by decide)⟩

/-- C10: every extracted identifier is a fixed point of upper-casing
(no lowercase letters), has the word-chars/hyphen/digits shape, and
occurs exactly once in the output; a no-match input yields the empty
sequence (the embedding's lists cannot distinguish Go's nil from an
empty non-nil slice, but the code always returns the non-nil `result`). -/
theorem c10_output_invariants :
    (∀ text : String, ∀ m ∈ extractIssueIDs text,
      toUpperStr m.data = m.data ∧ (∀ c ∈ m.data, c.isLower = false) ∧
      isIssueToken m.data = true ∧ (extractIssueIDs text).count m = 1) ∧
    extractIssueIDs "" = [] ∧ extractIssueIDs "hello world" = [] := by
  refine ⟨fun text m hm => ?_, by decide, by decide⟩
  obtain ⟨htok, hupper, hlower⟩ := extract_shape hm
  exact ⟨hupper, hlower, htok, List.count_eq_one_of_mem (extract_nodup text) hm⟩

/-- Witness for C10's universally quantified part at a concrete token. -/
theorem c10_witness :
    ("ABC-1" ∈ extractIssueIDs "see ABC-1 and abc-1 and DEF-2") ∧
    (toUpperStr (String.data "ABC-1") = String.data "ABC-1" ∧
      (∀ c ∈ String.data "ABC-1", c.isLower = false) ∧
      isIssueToken (String.data "ABC-1") = true ∧
      (extractIssueIDs "see ABC-1 and abc-1 and DEF-2").count "ABC-1" = 1) :=
  ⟨by decide,
    c10_output_invariants.1 "see ABC-1 and abc-1 and DEF-2" "ABC-1" (by decide)⟩

end JiraBot
